import Mathlib

/-!
Shallow embedding of the `clang_log` crate (src/src/lib.rs): a `log`-crate
sink that formats records in the style of clang diagnostics and routes them
to stdout or stderr.

Strings are modelled as `List Char`.  Severity levels follow the `log`
crate's `Level` enum, whose `usize` discriminants are `Error = 1, Warn = 2,
Info = 3, Debug = 4, Trace = 5`; the crate's `Ord` instance compares these
numbers, so `Error` is numerically least although it is the most severe.
Comparisons in the source (`metadata.level() <= self.min_level`,
`record.level() >= self.min_error_level`) are embedded as comparisons on
these discriminants, exactly as Rust evaluates them.

Terminal decoration (the `colored` crate) is an external collaborator: the
embedding is parameterised by a decoration function `deco`, and `decoANSI`
models the colorized rendering (`\x1b[1;<code>m … \x1b[0m`) while
`decoPlain` is the plain (undecorated) rendering used for structural
assertions.
-/

namespace ClangLog

/-- Strings of the model: lists of characters. -/
abbrev Str := List Char

/-- The `log` crate's `Level` enum. -/
inductive Level where
  | error
  | warn
  | info
  | debug
  | trace
deriving DecidableEq, Repr

/-- The `usize` discriminant of a `Level` in the `log` crate
(`Error = 1`, …, `Trace = 5`); Rust's `<=`/`>=` on `Level` compare these. -/
def Level.toNum : Level → Nat
  | .error => 1
  | .warn => 2
  | .info => 3
  | .debug => 4
  | .trace => 5

/-- Severity rank in the spec's order: Trace < Debug < Info < Warn < Error,
with Trace least severe (rank 0) and Error most severe (rank 4). -/
def severityRank : Level → Nat
  | .trace => 0
  | .debug => 1
  | .info => 2
  | .warn => 3
  | .error => 4

/-- The `log` crate's `LevelFilter` enum (`Off = 0`, …, `Trace = 5`). -/
inductive LevelFilter where
  | off
  | error
  | warn
  | info
  | debug
  | trace
deriving DecidableEq, Repr

/-- The `usize` discriminant of a `LevelFilter`. -/
def LevelFilter.toNum : LevelFilter → Nat
  | .off => 0
  | .error => 1
  | .warn => 2
  | .info => 3
  | .debug => 4
  | .trace => 5

/-- `Level::to_level_filter`: the same-named filter. -/
def Level.toLevelFilter : Level → LevelFilter
  | .error => .error
  | .warn => .warn
  | .info => .info
  | .debug => .debug
  | .trace => .trace

/-- Colors used by the sink (from the `colored` crate). -/
inductive Color where
  | red
  | brightPurple
  | brightBlack
  | yellow
  | white
deriving DecidableEq, Repr

/-- ANSI foreground code of each color, as the `colored` crate emits it. -/
def Color.code : Color → Nat
  | .red => 31
  | .yellow => 33
  | .white => 37
  | .brightBlack => 90
  | .brightPurple => 95

/-- A text style: boldness plus a foreground color. -/
structure Style where
  bold : Bool
  color : Color
deriving DecidableEq, Repr

/-- ANSI escape introducer `ESC [`. -/
def escIntro : Str := ['\x1b', '[']

/-- ANSI reset suffix `ESC [0m`. -/
def escReset : Str := ['\x1b', '[', '0', 'm']

/-- Decoration as the `colored` crate renders it in colorized mode:
`ESC [1;<code>m <text> ESC [0m` (the `1;` present when bold). -/
def decoANSI (s : Str) (st : Style) : Str :=
  escIntro ++ (if st.bold then [ '1', ';' ] else []) ++
    (Nat.repr st.color.code).data ++ [ 'm' ] ++ s ++ escReset

/-- Plain (undecorated) rendering: decoration codes ignored. -/
def decoPlain (s : Str) (_ : Style) : Str := s

/-- The label text chosen for each level in `Logger::log`
(the label includes its colon). -/
def labelOf : Level → Str
  | .error => "error:".data
  | .warn => "warning:".data
  | .info => "info:".data
  | .debug => "debug:".data
  | .trace => "trace:".data

/-- The style chosen for each level in `Logger::log`. -/
def styleOf : Level → Style
  | .error => ⟨true, .red⟩
  | .warn => ⟨true, .brightPurple⟩
  | .info => ⟨true, .brightBlack⟩
  | .debug => ⟨true, .yellow⟩
  | .trace => ⟨true, .white⟩

/-- The `Logger` struct of `clang_log`. -/
structure Logger where
  min_level : Level
  min_error_level : Level
  prog_name : Str
  newline_sep : Str
deriving DecidableEq, Repr

/-- The continuation marker: the styled column `"    | "` followed by the
space that `format!("\n{} ", …)` appends. -/
def continuationMarker (deco : Str → Style → Str) : Str :=
  deco ("    | ".data) ⟨true, .white⟩ ++ [ ' ' ]

/-- The `newline_sep` field as computed in `init`/`init_error`:
`format!("\n{} ", "    | ".white().bold())`. -/
def mkNewlineSep (deco : Str → Style → Str) : Str :=
  '\n' :: continuationMarker deco

/-- The logger value built by `init`/`init_error`. -/
def mkLogger (deco : Str → Style → Str) (min_level min_error_level : Level)
    (prog_name : Str) : Logger :=
  { min_level := min_level
    min_error_level := min_error_level
    prog_name := prog_name
    newline_sep := mkNewlineSep deco }

/-- Rust's `str::replace('\n', sep)`: every newline character replaced by
`sep`, all other characters kept. -/
def replaceNewlines (sep : Str) : Str → Str
  | [] => []
  | c :: cs => (if c = '\n' then sep else [ c ]) ++ replaceNewlines sep cs

/-- `Logger::enabled`: `metadata.level() <= self.min_level` in the `log`
crate's discriminant order. -/
def Logger.enabled (l : Logger) (lvl : Level) : Bool :=
  decide (lvl.toNum ≤ l.min_level.toNum)

/-- `": "` between the program name and the label. -/
def colonSpace : Str := ": ".data

/-- The single space between the label and the message. -/
def spaceSep : Str := " ".data

/-- The record text built by `format!("{}: {} {}", …)` in `Logger::log`:
program name, colon-space, styled label, space, message with newlines
replaced by `newline_sep`. -/
def Logger.formatRecord (deco : Str → Style → Str) (l : Logger) (lvl : Level)
    (msg : Str) : Str :=
  l.prog_name ++ colonSpace ++ deco (labelOf lvl) (styleOf lvl) ++ spaceSep ++
    replaceNewlines l.newline_sep msg

/-- The two output streams. -/
inductive Stream where
  | stdout
  | stderr
deriving DecidableEq, Repr

/-- `Logger::log`: early return when not enabled; otherwise format and
write, with a trailing newline, to stderr when
`record.level() >= self.min_error_level` (discriminant order) and to stdout
otherwise.  The result is the observable write, if any. -/
def Logger.log (deco : Str → Style → Str) (l : Logger) (lvl : Level)
    (msg : Str) : Option (Stream × Str) :=
  if l.enabled lvl = false then
    none
  else
    some (if l.min_error_level.toNum ≤ lvl.toNum then Stream.stderr else Stream.stdout,
      l.formatRecord deco lvl msg ++ [ '\n' ])

/-- Process-wide state of the `log` facade: the global max-level filter and
the installed boxed logger, if any. -/
structure LogState where
  maxLevel : LevelFilter
  logger : Option Logger
deriving DecidableEq, Repr

/-- Initial process state: filter `Off`, no logger installed. -/
def initialState : LogState := ⟨.off, none⟩

/-- The message of the `debug!` report emitted on a second install. -/
def twiceMsg : Str := "Logger initialized twice".data

/-- The `log!` dispatch path: no logger, no output; otherwise the facade's
filter gate (`lvl <= max_level()`) and then the sink's `log`. -/
def dispatch (deco : Str → Style → Str) (st : LogState) (lvl : Level)
    (msg : Str) : List (Stream × Str) :=
  match st.logger with
  | none => []
  | some l =>
    if lvl.toNum ≤ st.maxLevel.toNum then (l.log deco lvl msg).toList else []

/-- `clang_log::init`: sets the global filter to `min_level`, then tries to
install a logger with `min_error_level = Error`; on failure (already
installed) reports `debug!("Logger initialized twice")` through the
existing sink. -/
def init (deco : Str → Style → Str) (st : LogState) (min_level : Level)
    (prog_name : Str) : LogState × List (Stream × Str) :=
  let st1 : LogState := { st with maxLevel := min_level.toLevelFilter }
  match st.logger with
  | none =>
    ({ st1 with logger := some (mkLogger deco min_level Level.error prog_name) }, [])
  | some _ => (st1, dispatch deco st1 Level.debug twiceMsg)

/-- `clang_log::init_error`: as `init` but with the caller's
`min_error_level`. -/
def init_error (deco : Str → Style → Str) (st : LogState)
    (min_level min_error_level : Level) (prog_name : Str) :
    LogState × List (Stream × Str) :=
  let st1 : LogState := { st with maxLevel := min_level.toLevelFilter }
  match st.logger with
  | none =>
    ({ st1 with logger := some (mkLogger deco min_level min_error_level prog_name) }, [])
  | some _ => (st1, dispatch deco st1 Level.debug twiceMsg)

/-- `Logger::flush`: empty body — no writes, no state change. -/
def Logger.flush (_l : Logger) (st : LogState) : LogState × List (Stream × Str) :=
  (st, [])

/-- Physical lines of a string: segments separated by `'\n'`. -/
def splitLines : Str → List Str
  | [] => [[]]
  | c :: cs =>
    if c = '\n' then [] :: splitLines cs
    else (c :: (splitLines cs).headI) :: (splitLines cs).tail

/-- Join segments with a separator (left inverse of `splitLines` on
newline-free segments). -/
def joinSep (sep : Str) : List Str → Str
  | [] => []
  | [ l ] => l
  | l :: ls => l ++ sep ++ joinSep sep ls

/-- Inverse of `replaceNewlines ('\n' :: mk)` for a marker of length `k`:
on seeing `'\n'`, drop the `k` marker characters that follow. -/
def unreplace (k : Nat) : Str → Str
  | [] => []
  | c :: cs =>
    if c = '\n' then '\n' :: unreplace k (cs.drop k)
    else c :: unreplace k cs
termination_by l => l.length
decreasing_by
  · simp only [List.length_drop, List.length_cons]
    omega
  · simp only [List.length_cons]
    omega

/-- Sample program name used in concrete evaluations. -/
def clangName : Str := "clang".data

/-- Sample message used in concrete evaluations. -/
def msgM : Str := "Could not find files!".data

/-- A message with one embedded newline, used in concrete evaluations. -/
def msgAB : Str := "a\nb".data

/-- The logger `init_error(Trace, Warn, "clang")` installs. -/
def cfgWarn : Logger := mkLogger decoANSI Level.trace Level.warn clangName

/-- The logger `init(Trace, "clang")` installs (default error threshold). -/
def cfgDefault : Logger := mkLogger decoANSI Level.trace Level.error clangName

/-- Program name of the first install in the double-install scenario. -/
def nameFirst : Str := "first".data

/-- Program name of the second install in the double-install scenario. -/
def nameSecond : Str := "second".data

/-- State after a first `init(Trace, "first")` from the initial state. -/
def stFirst : LogState := (init decoANSI initialState Level.trace nameFirst).1

/-- The logger the first install registers. -/
def loggerFirst : Logger := mkLogger decoANSI Level.trace Level.error nameFirst

/-- State after a second `init(Error, "second")` on top of `stFirst`. -/
def stSecond : LogState := (init decoANSI stFirst Level.error nameSecond).1

/-- State after `init(Trace, "clang")` from the initial state. -/
def stClang : LogState := (init decoANSI initialState Level.trace clangName).1

/-- A logger whose minimum enabled level is `Warn`. -/
def cfgWarnMin : Logger := mkLogger decoANSI Level.warn Level.error clangName

/-- A program name that itself contains a newline character. -/
def badName : Str := "a\nb".data

/-- A logger whose program name contains a newline. -/
def cfgBad : Logger := mkLogger decoANSI Level.trace Level.error badName

/-- A one-segment (newline-free) message. -/
def msgOne : Str := "m".data

/-- A disabled-configuration sample: minimum level `Error`. -/
def cfgErrOnly : Logger := mkLogger decoANSI Level.error Level.error clangName

/-! ## Helper lemmas -/

theorem drop_len_append (p x : Str) : (p ++ x).drop p.length = x := by
  induction p with
  | nil => rfl
  | cons c cs ih => simp [ih]

theorem replaceNewlines_no_newline (sep : Str) :
    ∀ m : Str, '\n' ∉ m → replaceNewlines sep m = m := by
  intro m
  induction m with
  | nil => intro _; rfl
  | cons c cs ih =>
    intro h
    have hc : c ≠ '\n' := fun he => h (he ▸ List.mem_cons_self c cs)
    have hcs : '\n' ∉ cs := fun hm => h (List.mem_cons_of_mem c hm)
    simp [replaceNewlines, if_neg hc, ih hcs]

theorem unreplace_nil (k : Nat) : unreplace k [] = [] := by
  rw [unreplace.eq_def]

theorem unreplace_cons (k : Nat) (c : Char) (cs : Str) :
    unreplace k (c :: cs) =
      if c = '\n' then '\n' :: unreplace k (cs.drop k)
      else c :: unreplace k cs := by
  rw [unreplace.eq_def]

theorem replaceNewlines_cons_newline (sep cs : Str) :
    replaceNewlines sep ('\n' :: cs) = sep ++ replaceNewlines sep cs := by
  simp [replaceNewlines]

theorem replaceNewlines_cons_other (sep : Str) (c : Char) (cs : Str) (hc : c ≠ '\n') :
    replaceNewlines sep (c :: cs) = c :: replaceNewlines sep cs := by
  simp [replaceNewlines, hc]

theorem splitLines_cons_newline (cs : Str) :
    splitLines ('\n' :: cs) = [] :: splitLines cs := by
  simp [splitLines]

theorem splitLines_cons_other (c : Char) (cs : Str) (hc : c ≠ '\n') :
    splitLines (c :: cs) =
      (c :: (splitLines cs).headI) :: (splitLines cs).tail := by
  simp [splitLines, hc]

theorem unreplace_replace (mk : Str) :
    ∀ m : Str, unreplace mk.length (replaceNewlines ('\n' :: mk) m) = m := by
  intro m
  induction m with
  | nil => simp [replaceNewlines, unreplace_nil]
  | cons c cs ih =>
    by_cases hc : c = '\n'
    · subst hc
      rw [replaceNewlines_cons_newline, List.cons_append, unreplace_cons]
      simp [drop_len_append, ih]
    · rw [replaceNewlines_cons_other _ _ _ hc, unreplace_cons]
      simp [hc, ih]

theorem splitLines_ne_nil (m : Str) : splitLines m ≠ [] := by
  cases m with
  | nil => simp [splitLines]
  | cons c cs =>
    simp only [splitLines]
    split <;> simp

theorem splitLines_cons_exists (m : Str) :
    ∃ hd tl, splitLines m = hd :: tl := by
  cases h : splitLines m with
  | nil => exact absurd h (splitLines_ne_nil m)
  | cons a b => exact ⟨a, b, rfl⟩

theorem splitLines_append (p x : Str) (hp : '\n' ∉ p) (hd : Str) (tl : List Str)
    (hx : splitLines x = hd :: tl) :
    splitLines (p ++ x) = (p ++ hd) :: tl := by
  induction p with
  | nil => simpa using hx
  | cons c cs ih =>
    have hc : c ≠ '\n' := fun he => hp (he ▸ List.mem_cons_self c cs)
    have h2 := ih (fun hm => hp (List.mem_cons_of_mem c hm))
    rw [List.cons_append, splitLines_cons_other _ _ hc, h2]
    simp

theorem splitLines_replace (mk : Str) (hmk : '\n' ∉ mk) :
    ∀ (m hd : Str) (tl : List Str), splitLines m = hd :: tl →
      splitLines (replaceNewlines ('\n' :: mk) m) =
        hd :: tl.map (fun s => mk ++ s) := by
  intro m
  induction m with
  | nil =>
    intro hd tl h
    simp only [splitLines] at h
    obtain ⟨rfl, rfl⟩ := List.cons.inj h
    simp [replaceNewlines, splitLines]
  | cons c cs ih =>
    intro hd tl h
    obtain ⟨hd2, tl2, hcs⟩ := splitLines_cons_exists cs
    by_cases hc : c = '\n'
    · subst hc
      rw [splitLines_cons_newline] at h
      obtain ⟨rfl, rfl⟩ := List.cons.inj h
      have ihc := ih hd2 tl2 hcs
      rw [replaceNewlines_cons_newline, List.cons_append, splitLines_cons_newline,
        splitLines_append mk _ hmk _ _ ihc, hcs]
      simp
    · rw [splitLines_cons_other _ _ hc, hcs] at h
      simp only [List.headI, List.tail_cons] at h
      obtain ⟨rfl, rfl⟩ := List.cons.inj h
      have ihc := ih hd2 tl2 hcs
      rw [replaceNewlines_cons_other _ _ _ hc, splitLines_cons_other _ _ hc, ihc]
      simp

theorem replace_eq_joinSep (sep : Str) :
    ∀ m : Str, replaceNewlines sep m = joinSep sep (splitLines m) := by
  intro m
  induction m with
  | nil => rfl
  | cons c cs ih =>
    obtain ⟨hd2, tl2, hcs⟩ := splitLines_cons_exists cs
    by_cases hc : c = '\n'
    · subst hc
      rw [replaceNewlines_cons_newline, splitLines_cons_newline, ih, hcs]
      cases tl2 <;> simp [joinSep]
    · rw [replaceNewlines_cons_other _ _ _ hc, splitLines_cons_other _ _ hc, ih, hcs]
      cases tl2 <;> simp [joinSep, List.headI]

theorem marker_no_newline : '\n' ∉ continuationMarker decoANSI := by decide

theorem label_no_newline (lvl : Level) :
    '\n' ∉ decoANSI (labelOf lvl) (styleOf lvl) := by
  cases lvl <;> decide

theorem enabled_of_min_level (cfg : Logger) (lvl : Level) :
    cfg.enabled lvl = true ↔ lvl.toNum ≤ cfg.min_level.toNum := by
  simp [Logger.enabled]

theorem toNum_le_iff_rank (m l : Level) :
    l.toNum ≤ m.toNum ↔ severityRank m ≤ severityRank l := by
  cases m <;> cases l <;> decide

/-! ## Claim theorems -/

/-- Claim C1: the claim says an enabled event goes to stderr iff its level
is at least as severe as `min_error_level`, so with `min_error_level = Warn`
an Error-level event must go to stderr and Info must go to stdout.  The
source compares with `record.level() >= self.min_error_level` in the `log`
crate's discriminant order (Error = 1 is numerically least), which inverts
the routing: under `init_error(Trace, Warn, "clang")` an Error event is
written to stdout while Warn, Info (and below) are written to stderr.  This
contradicts the `min_error_level` field's own documentation ("Minimum level
this logger will print to stderr. For example: `Level::Warn`"). -/
theorem C1_routing_inverted :
    ((cfgWarn.log decoANSI Level.error msgM).map Prod.fst = some Stream.stdout) ∧
    ((cfgWarn.log decoANSI Level.warn msgM).map Prod.fst = some Stream.stderr) ∧
    ((cfgWarn.log decoANSI Level.info msgM).map Prod.fst = some Stream.stderr) ∧
    ((cfgWarn.log decoANSI Level.trace msgM).map Prod.fst = some Stream.stderr) := by
  decide

/-- Claim C2: the claim says the default initializer (`min_error_level =
Error`) routes only Error-level events to stderr.  In the source,
`record.level() >= self.min_error_level` holds for every level when
`min_error_level = Error` (discriminant 1 is minimal), so a
default-initialized logger writes every enabled event — here an Info and
even a Trace event — to stderr. -/
theorem C2_default_routes_all_to_stderr :
    (stClang.logger = some cfgDefault) ∧
    (cfgDefault.min_error_level = Level.error) ∧
    ((cfgDefault.log decoANSI Level.info msgM).map Prod.fst = some Stream.stderr) ∧
    ((cfgDefault.log decoANSI Level.trace msgM).map Prod.fst = some Stream.stderr) := by
  decide

/-- Claim C3: for every config and level, `enabled` returns true iff the
event's severity rank (Trace least, Error most severe) is at least the
configured minimum's rank; and for every strictly-more-severe pair (a, b),
a config with `min_level = b` enables both while a config with
`min_level = a` enables a and not b. -/
theorem C3_enabled_iff :
    (∀ (cfg : Logger) (lvl : Level),
      cfg.enabled lvl = true ↔ severityRank cfg.min_level ≤ severityRank lvl) ∧
    (∀ (a b : Level) (cfgb cfga : Logger),
      severityRank b < severityRank a →
      cfgb.min_level = b → cfga.min_level = a →
      cfgb.enabled a = true ∧ cfgb.enabled b = true ∧
        cfga.enabled a = true ∧ cfga.enabled b = false) := by
  constructor
  · intro cfg lvl
    rw [enabled_of_min_level]
    exact toNum_le_iff_rank cfg.min_level lvl
  · intro a b cfgb cfga hab hb ha
    simp only [Logger.enabled, hb, ha]
    revert hab
    cases a <;> cases b <;> decide

/-- Claim C3 witness: with `min_level = Warn` both Error and Warn are
enabled; with `min_level = Error`, Error is enabled and Warn is not. -/
theorem C3_enabled_iff_witness :
    cfgWarnMin.enabled Level.error = true ∧ cfgWarnMin.enabled Level.warn = true ∧
      cfgErrOnly.enabled Level.error = true ∧ cfgErrOnly.enabled Level.warn = false :=
  C3_enabled_iff.2 Level.error Level.warn cfgWarnMin cfgErrOnly (by decide) rfl rfl

/-- Claim C4 counterexample: the claim says a second install leaves the
process-wide filter level unchanged, but `init` calls `set_max_level`
before the install-guard check: after `init(Trace, "first")` the global
filter is `Trace`, and a subsequent `init(Error, "second")` changes it to
`Error`. -/
theorem C4_counterexample :
    stFirst.maxLevel = LevelFilter.trace ∧
    stSecond.maxLevel = LevelFilter.error ∧
    stSecond.maxLevel ≠ stFirst.maxLevel := by
  decide

/-- Claim C4 as amended: a second install does not overwrite the installed
sink (the program name and thresholds used in subsequently formatted output
remain those of the first install), does not panic, and reports the
condition non-fatally at Debug severity through the already-installed sink
(every write it produces is the first sink's Debug-formatted record
"Logger initialized twice") — but it does set the process-wide filter level
to the second install's `min_level`. -/
theorem C4_second_install (deco : Str → Style → Str) (st : LogState) (l : Logger)
    (m2 : Level) (p2 : Str) (h : st.logger = some l) :
    (init deco st m2 p2).1.logger = some l ∧
    (init deco st m2 p2).1.maxLevel = m2.toLevelFilter ∧
    ∀ w ∈ (init deco st m2 p2).2,
      w.2 = l.formatRecord deco Level.debug twiceMsg ++ [ '\n' ] := by
  refine ⟨by simp [init, h], by simp [init, h], ?_⟩
  intro w hw
  simp only [init, h, dispatch] at hw
  split at hw
  · cases hlog : l.log deco Level.debug twiceMsg with
    | none => rw [hlog] at hw; simp at hw
    | some p =>
      rw [hlog] at hw
      simp only [Option.toList, List.mem_singleton] at hw
      subst hw
      simp only [Logger.log] at hlog
      by_cases he : l.enabled Level.debug = false
      · simp [he] at hlog
      · rw [if_neg he] at hlog
        obtain rfl := Option.some.inj hlog
        rfl
  · simp at hw

/-- Claim C4 witness: after `init(Trace, "first")`, a second
`init(Error, "second")` keeps the first logger installed, sets the global
filter to `Error`, and every write it emits is the first logger's
Debug-formatted report. -/
theorem C4_second_install_witness :
    stSecond.logger = some loggerFirst ∧
    stSecond.maxLevel = Level.toLevelFilter Level.error ∧
    ∀ w ∈ (init decoANSI stFirst Level.error nameSecond).2,
      w.2 = loggerFirst.formatRecord decoANSI Level.debug twiceMsg ++ [ '\n' ] :=
  C4_second_install decoANSI stFirst loggerFirst Level.error nameSecond (by decide)

/-- Claim C5 counterexample: the claim quantifies over every config, but a
config whose program name itself contains a newline (reachable through
`init`, which accepts any program name) breaks the line-count consequence:
with program name "a\nb" and the one-segment message "m", the formatted
output has two physical lines, not one. -/
theorem C5_counterexample :
    (splitLines (cfgBad.formatRecord decoANSI Level.info msgOne)).length ≠
      (splitLines msgOne).length := by
  decide

/-- Claim C5 as amended: for every config built with the sink's separator
and whose program name contains no newline, and every message, formatting
replaces every embedded newline of the message with
`config.continuation_separator` preserving all segments (the output is the
prefix followed by the message's newline-separated segments joined by the
separator); consequently the formatted output has exactly as many physical
lines as the message has newline-separated segments, and every physical
line after the first begins with the continuation marker. -/
theorem C5_multiline_format (cfg : Logger) (lvl : Level) (msg : Str)
    (hsep : cfg.newline_sep = mkNewlineSep decoANSI)
    (hname : '\n' ∉ cfg.prog_name) :
    cfg.formatRecord decoANSI lvl msg =
      cfg.prog_name ++ colonSpace ++ decoANSI (labelOf lvl) (styleOf lvl) ++
        spaceSep ++ joinSep cfg.newline_sep (splitLines msg) ∧
    (splitLines (cfg.formatRecord decoANSI lvl msg)).length =
      (splitLines msg).length ∧
    ∀ line ∈ (splitLines (cfg.formatRecord decoANSI lvl msg)).tail,
      ∃ t, line = continuationMarker decoANSI ++ t := by
  obtain ⟨hd, tl, hm⟩ := splitLines_cons_exists msg
  have hrepl : splitLines (replaceNewlines cfg.newline_sep msg) =
      hd :: tl.map (fun s => continuationMarker decoANSI ++ s) := by
    rw [hsep]
    exact splitLines_replace (continuationMarker decoANSI) marker_no_newline msg hd tl hm
  have hpre : '\n' ∉ cfg.prog_name ++ colonSpace ++
      decoANSI (labelOf lvl) (styleOf lvl) ++ spaceSep := by
    intro hmem
    rcases List.mem_append.1 hmem with hmem | hmem
    · rcases List.mem_append.1 hmem with hmem | hmem
      · rcases List.mem_append.1 hmem with hmem | hmem
        · exact hname hmem
        · exact absurd hmem (by decide)
      · exact label_no_newline lvl hmem
    · exact absurd hmem (by decide)
  have hsplit : splitLines (cfg.formatRecord decoANSI lvl msg) =
      (cfg.prog_name ++ colonSpace ++ decoANSI (labelOf lvl) (styleOf lvl) ++
        spaceSep ++ hd) :: tl.map (fun s => continuationMarker decoANSI ++ s) := by
    simp only [Logger.formatRecord]
    exact splitLines_append _ _ hpre _ _ hrepl
  refine ⟨?_, ?_, ?_⟩
  · simp only [Logger.formatRecord]
    rw [replace_eq_joinSep cfg.newline_sep msg]
  · rw [hsplit, hm]
    simp
  · rw [hsplit]
    intro line hl
    simp only [List.tail_cons, List.mem_map] at hl
    obtain ⟨s, _, rfl⟩ := hl
    exact ⟨s, rfl⟩

/-- Claim C5 witness: the amended statement at the default "clang" config
and the two-segment message "a\nb". -/
theorem C5_multiline_format_witness :
    cfgDefault.formatRecord decoANSI Level.info msgAB =
      cfgDefault.prog_name ++ colonSpace ++
        decoANSI (labelOf Level.info) (styleOf Level.info) ++ spaceSep ++
        joinSep cfgDefault.newline_sep (splitLines msgAB) ∧
    (splitLines (cfgDefault.formatRecord decoANSI Level.info msgAB)).length =
      (splitLines msgAB).length ∧
    ∀ line ∈ (splitLines (cfgDefault.formatRecord decoANSI Level.info msgAB)).tail,
      ∃ t, line = continuationMarker decoANSI ++ t :=
  C5_multiline_format cfgDefault Level.info msgAB rfl (by decide)

/-- Claim C6: the newline-substitution applied to the message body
(replacing every newline with the sink's continuation separator) is
injective: distinct messages map to distinct outputs.  It is a total pure
function by construction. -/
theorem C6_replace_injective (m1 m2 : Str)
    (h : replaceNewlines (mkNewlineSep decoANSI) m1 =
      replaceNewlines (mkNewlineSep decoANSI) m2) :
    m1 = m2 := by
  have h2 := congrArg (unreplace (continuationMarker decoANSI).length) h
  simp only [mkNewlineSep] at h2
  rwa [unreplace_replace, unreplace_replace] at h2

/-- Claim C6 witness: the injectivity theorem applied at the concrete
message "a\nb" against itself. -/
theorem C6_replace_injective_witness : msgAB = msgAB :=
  C6_replace_injective msgAB msgAB rfl

/-- Claim C7: for every config and newline-free message, the formatted
record — decoration codes ignored, i.e. under the plain rendering — is
exactly the program name, colon and one space, the level label (which
carries its own colon), one space, and the unmodified message, with no
continuation separator inserted. -/
theorem C7_single_line_format (cfg : Logger) (lvl : Level) (msg : Str)
    (h : '\n' ∉ msg) :
    cfg.formatRecord decoPlain lvl msg =
      cfg.prog_name ++ colonSpace ++ labelOf lvl ++ spaceSep ++ msg := by
  simp only [Logger.formatRecord, decoPlain,
    replaceNewlines_no_newline cfg.newline_sep msg h]

/-- Claim C7 witness: the single-line format theorem at the "clang" config,
Error level and the newline-free message "Could not find files!". -/
theorem C7_single_line_format_witness :
    cfgDefault.formatRecord decoPlain Level.error msgM =
      cfgDefault.prog_name ++ colonSpace ++ labelOf Level.error ++ spaceSep ++ msgM :=
  C7_single_line_format cfgDefault Level.error msgM (by decide)

/-- Claim C8: the level-to-label-and-style mapping is total and
deterministic over the five severities: Error ↦ "error:" bold red, Warn ↦
"warning:" bold bright purple, Info ↦ "info:" bold bright black, Debug ↦
"debug:" bold yellow, Trace ↦ "trace:" bold white (it is a Lean function,
hence total and single-valued; the five equations cover every variant). -/
theorem C8_label_style_table :
    (labelOf Level.error = "error:".data ∧ styleOf Level.error = ⟨true, Color.red⟩) ∧
    (labelOf Level.warn = "warning:".data ∧
      styleOf Level.warn = ⟨true, Color.brightPurple⟩) ∧
    (labelOf Level.info = "info:".data ∧
      styleOf Level.info = ⟨true, Color.brightBlack⟩) ∧
    (labelOf Level.debug = "debug:".data ∧
      styleOf Level.debug = ⟨true, Color.yellow⟩) ∧
    (labelOf Level.trace = "trace:".data ∧
      styleOf Level.trace = ⟨true, Color.white⟩) := by
  decide

/-- Claim C9: when the event's level is not enabled under the config's
minimum level, `log` returns before formatting and produces no write on
either stream. -/
theorem C9_disabled_no_write (deco : Str → Style → Str) (cfg : Logger)
    (lvl : Level) (msg : Str) (h : cfg.enabled lvl = false) :
    cfg.log deco lvl msg = none := by
  simp [Logger.log, h]

/-- Claim C9 witness: with minimum level Error, a Warn-level event produces
no write. -/
theorem C9_disabled_no_write_witness :
    cfgErrOnly.log decoANSI Level.warn msgM = none :=
  C9_disabled_no_write decoANSI cfgErrOnly Level.warn msgM (by decide)

/-- Claim C10: `flush` has an empty body: for every logger and every
process-wide state it writes nothing to either stream and leaves the state
(and the logger itself, which it does not touch) unchanged. -/
theorem C10_flush_noop (l : Logger) (st : LogState) :
    Logger.flush l st = (st, []) := rfl

end ClangLog
